import Mathlib

/-
  Verification development for the client-side real-time synchronization
  module (sync-manager.js) of the DWRNote / NTEOK note-taking application.

  The module manages one SSE page-sync stream plus one SSE collection
  metadata stream, a local Yjs replicated document, and a focus-aware
  merge gate on the Tiptap editor.  The development below is a shallow
  embedding: the module-level mutable variables (currentPageSync,
  currentCollectionSync, ydoc, yXmlFragment, yMetadata, state.*) and the
  closure variables of setupEditorBinding (remoteUpdatePending,
  updateTimeout, isUpdating) become fields of an explicit client state,
  and every exported function and event-handler closure of the module
  becomes a state-transformer, returning additionally the list of updates
  it submits to the server via sendYjsUpdate.

  The Yjs engine itself is an external collaborator (imported from a CDN);
  its effect on the derived metadata content is therefore a parameter
  (MergeFn) of the whole development, and escapeHtml (imported from
  ui-utils.js, not part of the sources) is likewise a parameter.
-/

namespace DWRNote

/-- Origin tag of a Yjs transaction: JS code passes a string origin to
Y.applyUpdate or omits it; `none` models an absent (null) origin. -/
abbrev Origin := Option String

/-- Origin string attached to updates received over the SSE stream
(startPageSync, yjs-update listener, line 82 of sync-manager.js). -/
def remoteOrigin : Origin := some "remote"

/-- Content of one Yjs transaction on the page document: either an
externally supplied binary update (its bytes abstracted as a number), or a
write of the content key of the metadata map by the editor binding. -/
inductive Payload where
  | ext (bytes : Nat)
  | setContent (s : String)
deriving DecidableEq

/-- External merge semantics of the Yjs engine: how applying an external
binary update changes the value of the content key of the metadata map.
The engine is an opaque collaborator, so the development is parametric in
this function. -/
abbrev MergeFn := Option String → Nat → Option String

/-- Model of the client-side Yjs document (module variable ydoc) together
with its metadata map (yMetadata): `applied` is the log of transactions run
on the document with their origins, `content` is the current value of the
content key of the metadata map (`none` when unset), and `boundPageId` is
the page id captured by the closure that startPageSync registers with
ydoc.on for the update event.  The XML fragment yXmlFragment is a view
into the same document and carries no separate state used by the module. -/
structure YDoc where
  applied : List (Payload × Origin)
  content : Option String
  boundPageId : String
deriving DecidableEq

/-- One transaction applying an external binary update (Y.applyUpdate),
combined with the effect of the ydoc.on update handler registered in
startPageSync: the update is forwarded to the server via sendYjsUpdate
exactly when the transaction origin differs from the string remote. -/
def docApplyUpdate (merge : MergeFn) (d : YDoc) (u : Nat) (o : Origin) :
    YDoc × List (String × Payload) :=
  ( { applied := d.applied ++ [(Payload.ext u, o)]
    , content := merge d.content u
    , boundPageId := d.boundPageId }
  , if o = remoteOrigin then [] else [(d.boundPageId, Payload.ext u)] )

/-- One transaction writing the content key of the metadata map
(yMetadata.set), run without an explicit origin, hence forwarded to the
server by the ydoc.on update handler. -/
def docSetContent (d : YDoc) (s : String) : YDoc × List (String × Payload) :=
  ( { applied := d.applied ++ [(Payload.setContent s, none)]
    , content := some s
    , boundPageId := d.boundPageId }
  , [(d.boundPageId, Payload.setContent s)] )

/-- Model of the Tiptap editor (state.editor) as seen by the module:
`content` is getHTML, `focused` is view.hasFocus, `pending` is the
remoteUpdatePending closure variable of the current editor binding,
`hasPendingHook` records whether setupEditorBinding has installed the
hook that stores a pending remote update, `updateTimeout` is the pending
debounce timer of the binding (holding its delay in milliseconds), and
`isUpdating` is the binding's re-entrancy flag. -/
structure Editor where
  content : String
  focused : Bool
  pending : Option String
  hasPendingHook : Bool
  updateTimeout : Option Nat
  isUpdating : Bool
deriving DecidableEq

/-- One page entry of the sidebar: the data-page-id attribute, the text of
the title span (excluding icon markup) and the icon markup value. -/
structure SidebarEntry where
  pageId : String
  title : String
  icon : String
deriving DecidableEq

/-- The whole mutable state of the module: the two sync records, the Yjs
document, the shared app state fields the module reads and writes, the set
of currently open EventSource connections (by a fresh numeric id), the
scheduled reconnect timers (page id and delay in milliseconds), the
sidebar and the cover of the viewed page (image value and vertical
position). -/
structure ClientState where
  currentPageSync : Option (Nat × String)
  currentCollectionSync : Option (Nat × String)
  ydoc : Option YDoc
  currentPageId : Option String
  currentCollectionId : Option String
  editor : Option Editor
  openPageConns : List Nat
  openCollConns : List Nat
  nextConnId : Nat
  pendingReconnects : List (String × Nat)
  sidebar : List SidebarEntry
  cover : Option (String × String)
deriving DecidableEq

/-- stopPageSync: close the current page EventSource, drop the sync
record, destroy the Yjs document (with its fragment and metadata views)
and clear the current page id. -/
def stopPageSync (st : ClientState) : ClientState :=
  let conns :=
    match st.currentPageSync with
    | some cs => st.openPageConns.filter (fun c => c ≠ cs.1)
    | none => st.openPageConns
  { st with openPageConns := conns, currentPageSync := none,
            ydoc := none, currentPageId := none }

/-- A newly constructed Y.Doc: empty transaction log, content key unset. -/
def freshYDoc (pageId : String) : YDoc :=
  { applied := [], content := none, boundPageId := pageId }

/-- startPageSync: on an encrypted page only an informational notification
is shown (a DOM effect outside this model) and nothing else happens;
otherwise the previous sync is stopped first, the current page id is set,
a fresh Yjs document is created, and a new EventSource is opened and
recorded as the current page sync. -/
def startPageSync (pageId : String) (isEncrypted : Bool) (st : ClientState) :
    ClientState :=
  if isEncrypted then st
  else
    let st1 := stopPageSync st
    { st1 with
      currentPageId := some pageId,
      ydoc := some (freshYDoc pageId),
      openPageConns := st1.openPageConns ++ [st1.nextConnId],
      currentPageSync := some (st1.nextConnId, pageId),
      nextConnId := st1.nextConnId + 1 }

/-- setupEditorBinding: requires the editor and the document; writes the
current editor content into the metadata map (a local transaction, hence
submitted by the update handler), and creates a fresh binding closure:
no pending remote update, no pending debounce timer, re-entrancy flag
clear, and the pending-update hook installed on the editor. -/
def setupEditorBinding (st : ClientState) : ClientState × List (String × Payload) :=
  match st.editor, st.ydoc with
  | some ed, some d =>
    let r := docSetContent d ed.content
    ( { st with ydoc := some r.1, editor := some { ed with pending := none, hasPendingHook := true, updateTimeout := none, isUpdating := false } },
      r.2 )
  | _, _ => (st, [])

/-- The init event listener of startPageSync: decodes the snapshot and
applies it with Y.applyUpdate WITHOUT an origin argument, then binds the
editor.  When the document is absent the handler throws inside its catch
block and changes nothing. -/
def initListener (merge : MergeFn) (snapshot : Nat) (st : ClientState) :
    ClientState × List (String × Payload) :=
  match st.ydoc with
  | some d =>
    let r := docApplyUpdate merge d snapshot none
    let r2 := setupEditorBinding { st with ydoc := some r.1 }
    (r2.1, r.2 ++ r2.2)
  | none => (st, [])

/-- The yjs-update event listener of startPageSync: always applies the
decoded update to the document with origin remote; then reads the derived
content from the metadata map and, only if it is a non-empty string, an
editor exists and the content differs from the rendered content, either
stores it as pending (editor focused, hook installed) or renders it
immediately (editor not focused).  setContent is invoked with emitUpdate
false, so rendering does not feed back into the update handler.
The rendering gate is factored out below as yjsRenderGate. -/
def yjsRenderGate (c? : Option String) (st : ClientState) : ClientState :=
  match c?, st.editor with
  | some c, some ed =>
    if c ≠ "" then
      if c ≠ ed.content then
        if ed.focused then
          if ed.hasPendingHook then
            { st with editor := some { ed with pending := some c } }
          else st
        else
          { st with editor := some { ed with content := c } }
      else st
    else st
  | _, _ => st

def yjsUpdateListener (merge : MergeFn) (u : Nat) (st : ClientState) :
    ClientState × List (String × Payload) :=
  match st.ydoc with
  | none => (st, [])
  | some d =>
    let r := docApplyUpdate merge d u remoteOrigin
    (yjsRenderGate r.1.content { st with ydoc := some r.1 }, r.2)

/-- The editor update listener installed by setupEditorBinding: ignored
while the re-entrancy flag is set; otherwise the previous debounce timer
is cleared and a fresh one of 200 milliseconds is scheduled. -/
def editorUpdateListener (st : ClientState) : ClientState :=
  match st.editor with
  | some ed =>
    if ed.isUpdating then st
    else { st with editor := some { ed with updateTimeout := some 200 } }
  | none => st

/-- The body of the debounce timer scheduled by the editor update
listener: compares the current editor content with the stored content of
the metadata map and writes (and thereby submits) it only when they
differ.  Firing consumes the timer; when the document has been destroyed
in the meantime the body throws on the metadata access and changes
nothing further. -/
def editorUpdateFlush (st : ClientState) : ClientState × List (String × Payload) :=
  match st.editor, st.ydoc with
  | some ed, some d =>
    if some ed.content ≠ d.content then
      let r := docSetContent d ed.content
      ( { st with ydoc := some r.1,
                  editor := some { ed with updateTimeout := none } }, r.2 )
    else
      ({ st with editor := some { ed with updateTimeout := none } }, [])
  | some ed, none =>
    ({ st with editor := some { ed with updateTimeout := none } }, [])
  | none, _ => (st, [])

/-- The blur listener installed by setupEditorBinding: the editor loses
input focus, and the handler runs under the JS truthiness guard on
remoteUpdatePending — a pending non-empty string is rendered (with
emitUpdate false, guarded by the re-entrancy flag) and the slot cleared;
a pending empty string is falsy, so it is neither applied nor cleared. -/
def blurListener (st : ClientState) : ClientState :=
  match st.editor with
  | some ed =>
    match ed.pending with
    | some c =>
      if c ≠ "" then
        { st with editor := some { ed with content := c, pending := none, focused := false } }
      else
        { st with editor := some { ed with focused := false } }
    | none => { st with editor := some { ed with focused := false } }
  | none => st

/-- The editor gains input focus (a host event; the module installs no
listener for it, the flag is only read through view.hasFocus). -/
def focusEditor (st : ClientState) : ClientState :=
  match st.editor with
  | some ed => { st with editor := some { ed with focused := true } }
  | none => st

/-- The hook stored on the editor by setupEditorBinding that records a
remote update as pending (last write wins). -/
def setPendingRemoteUpdate (c : String) (st : ClientState) : ClientState :=
  match st.editor with
  | some ed => { st with editor := some { ed with pending := some c } }
  | none => st

/-- stopCollectionSync: close the current collection EventSource, drop the
record and clear the current collection id. -/
def stopCollectionSync (st : ClientState) : ClientState :=
  let conns :=
    match st.currentCollectionSync with
    | some cs => st.openCollConns.filter (fun c => c ≠ cs.1)
    | none => st.openCollConns
  { st with openCollConns := conns, currentCollectionSync := none,
            currentCollectionId := none }

/-- startCollectionSync: stop the previous collection sync, set the
current collection id, open a new EventSource and record it. -/
def startCollectionSync (collectionId : String) (st : ClientState) :
    ClientState :=
  let st1 := stopCollectionSync st
  { st1 with
    currentCollectionId := some collectionId,
    openCollConns := st1.openCollConns ++ [st1.nextConnId],
    currentCollectionSync := some (st1.nextConnId, collectionId),
    nextConnId := st1.nextConnId + 1 }

/-- Text contributed by the icon markup to the title span's textContent:
an emoji icon (a non-empty value not starting with fa-) is rendered as a
span whose own text is the value, while a Font Awesome icon is an i
element contributing no text, and an empty value renders no icon. -/
def iconText (icon : String) : String :=
  if icon ≠ "" ∧ icon.startsWith "fa-" = false then icon else ""

/-- The per-field update that updatePageInSidebar performs on the matched
sidebar element: a title change replaces the title text (HTML-escaped,
icon markup preserved); an icon change replaces the icon markup and
re-renders, as the new title text, the escaped and trimmed textContent of
the whole span — which includes an emoji icon's text; other fields leave
the element unchanged. -/
def sidebarApplyField (esc : String → String) (field value : String)
    (e : SidebarEntry) : SidebarEntry :=
  if field = "title" then { e with title := esc value }
  else if field = "icon" then
    { e with icon := value, title := esc ((iconText e.icon ++ e.title).trim) }
  else e

/-- updatePageInSidebar: querySelector finds the first element whose
data-page-id equals the given page id (or none), and only that element is
modified. -/
def updatePageInSidebar (esc : String → String) (pageId field value : String) :
    List SidebarEntry → List SidebarEntry
  | [] => []
  | e :: rest =>
    if e.pageId = pageId then sidebarApplyField esc field value e :: rest
    else e :: updatePageInSidebar esc pageId field value rest

/-- The metadata-change event listener of startCollectionSync: a cover
image change for the currently open page shows the cover (at vertical
position 50, per cover-manager) or hides it when the value is empty; a
cover position change for the currently open page moves the shown cover;
and the sidebar entry of the named page is updated.  Cover changes for
other pages touch nothing. -/
def metadataChangeListener (esc : String → String)
    (pageId field value : String) (st : ClientState) : ClientState :=
  let st1 :=
    if field = "coverImage" ∧ st.currentPageId = some pageId then
      if value ≠ "" then { st with cover := some (value, "50") }
      else { st with cover := none }
    else st
  let st2 :=
    if field = "coverPosition" ∧ st1.currentPageId = some pageId then
      match st1.cover with
      | some uc => { st1 with cover := some (uc.1, value) }
      | none => st1
    else st1
  { st2 with sidebar := updatePageInSidebar esc pageId field value st2.sidebar }

/-- The onerror handler of the page EventSource: closes that stream and
schedules a reconnect after a fixed 3000 millisecond delay. -/
def pageSyncOnError (connId : Nat) (pageId : String) (st : ClientState) :
    ClientState :=
  { st with openPageConns := st.openPageConns.filter (fun c => c ≠ connId),
            pendingReconnects := st.pendingReconnects ++ [(pageId, 3000)] }

/-- Removes the first scheduled reconnect for the given page. -/
def removeReconnect (pageId : String) :
    List (String × Nat) → List (String × Nat)
  | [] => []
  | t :: rest =>
    if t = (pageId, 3000) then rest else t :: removeReconnect pageId rest

/-- The reconnect timer body scheduled by the onerror handler: restarts
the page sync only when the current page id still equals the page whose
stream erred (synced pages are never encrypted, so the captured encrypted
flag is false). -/
def pageSyncReconnect (pageId : String) (st : ClientState) : ClientState :=
  let st1 := { st with pendingReconnects := removeReconnect pageId st.pendingReconnects }
  if st.currentPageId = some pageId then startPageSync pageId false st1
  else st1

/-- The onerror handler of the collection EventSource: closes the stream
and schedules nothing. -/
def collectionSyncOnError (connId : Nat) (st : ClientState) : ClientState :=
  { st with openCollConns := st.openCollConns.filter (fun c => c ≠ connId) }

/-- First half of handleOnline: when a current page id is set (a
non-empty string, by JS truthiness) and no page sync is active, restart
it; the code passes the encrypted flag as false. -/
def handleOnlinePage (st : ClientState) : ClientState :=
  match st.currentPageId, st.currentPageSync with
  | some p, none => if p = "" then st else startPageSync p false st
  | _, _ => st

/-- Second half of handleOnline: restart the collection sync when a
collection id is set and no collection sync is active. -/
def handleOnlineColl (st : ClientState) : ClientState :=
  match st.currentCollectionId, st.currentCollectionSync with
  | some c, none => if c = "" then st else startCollectionSync c st
  | _, _ => st

/-- handleOnline: run the page restart, then the collection restart. -/
def handleOnline (st : ClientState) : ClientState :=
  handleOnlineColl (handleOnlinePage st)

/-- First half of handleVisibilityChange: restart the page sync when its
EventSource is no longer open (readyState is an external observation,
passed as a flag). -/
def visibilityPage (pageOpen : Bool) (st : ClientState) : ClientState :=
  match st.currentPageSync with
  | some cs => if pageOpen then st else startPageSync cs.2 false st
  | none => st

/-- Second half of handleVisibilityChange: restart the collection sync
when its EventSource is no longer open. -/
def visibilityColl (collOpen : Bool) (st : ClientState) : ClientState :=
  match st.currentCollectionSync with
  | some cs => if collOpen then st else startCollectionSync cs.2 st
  | none => st

/-- handleVisibilityChange: when the document becomes visible, restart
either sync whose EventSource is no longer open. -/
def handleVisibilityChange (hidden pageOpen collOpen : Bool)
    (st : ClientState) : ClientState :=
  if hidden then st
  else visibilityColl collOpen (visibilityPage pageOpen st)

/-- One externally triggered step of the module: a caller invoking one of
the exported functions, or one of the registered event handlers firing.
The development is parametric in the engine merge function, the HTML
escaper and the ground-truth encrypted flag of each page; callers of
startPageSync pass the page's flag. -/
inductive Step (merge : MergeFn) (esc : String → String) (enc : String → Bool) :
    ClientState → ClientState → Prop where
  | startPage (p : String) (st : ClientState) :
      Step merge esc enc st (startPageSync p (enc p) st)
  | stopPage (st : ClientState) :
      Step merge esc enc st (stopPageSync st)
  | startColl (c : String) (st : ClientState) :
      Step merge esc enc st (startCollectionSync c st)
  | stopColl (st : ClientState) :
      Step merge esc enc st (stopCollectionSync st)
  | initEv (s : Nat) (st : ClientState) :
      Step merge esc enc st (initListener merge s st).1
  | yjsUpdateEv (u : Nat) (st : ClientState) :
      Step merge esc enc st (yjsUpdateListener merge u st).1
  | metadataEv (pid field value : String) (st : ClientState) :
      Step merge esc enc st (metadataChangeListener esc pid field value st)
  | editorUpdateEv (st : ClientState) :
      Step merge esc enc st (editorUpdateListener st)
  | flushEv (st : ClientState) :
      Step merge esc enc st (editorUpdateFlush st).1
  | blurEv (st : ClientState) :
      Step merge esc enc st (blurListener st)
  | focusEv (st : ClientState) :
      Step merge esc enc st (focusEditor st)
  | pageErr (cid : Nat) (p : String) (st : ClientState) :
      Step merge esc enc st (pageSyncOnError cid p st)
  | reconnectEv (p : String) (st : ClientState) :
      Step merge esc enc st (pageSyncReconnect p st)
  | collErr (cid : Nat) (st : ClientState) :
      Step merge esc enc st (collectionSyncOnError cid st)
  | onlineEv (st : ClientState) :
      Step merge esc enc st (handleOnline st)
  | visibilityEv (hidden pageOpen collOpen : Bool) (st : ClientState) :
      Step merge esc enc st (handleVisibilityChange hidden pageOpen collOpen st)

/-- Reachability of a client state from another along module steps. -/
def Reachable (merge : MergeFn) (esc : String → String) (enc : String → Bool) :
    ClientState → ClientState → Prop :=
  Relation.ReflTransGen (Step merge esc enc)

/-- The open page EventSource connections are exactly those of the current
page sync record: none, or the single recorded one (the recorded stream
may already be closed after a transport error). -/
def pageConnsOk (st : ClientState) : Prop :=
  match st.currentPageSync with
  | some cs => st.openPageConns = [] ∨ st.openPageConns = [cs.1]
  | none => st.openPageConns = []

/-- Analogous shape invariant for the collection stream. -/
def collConnsOk (st : ClientState) : Prop :=
  match st.currentCollectionSync with
  | some cs => st.openCollConns = [] ∨ st.openCollConns = [cs.1]
  | none => st.openCollConns = []

/-- Combined connection invariant of the module. -/
def ConnInv (st : ClientState) : Prop := pageConnsOk st ∧ collConnsOk st

/-- An encrypted page is never the current page and never the page of the
active page sync record. -/
def EncInv (enc : String → Bool) (st : ClientState) : Prop :=
  (∀ p, st.currentPageId = some p → enc p = false) ∧
  (∀ cs, st.currentPageSync = some cs → enc cs.2 = false)

/-- The state of the module right after initSyncManager, before any sync
has been started: an editor exists, nothing else. -/
def initialEditor : Editor :=
  { content := "", focused := false, pending := none, hasPendingHook := false,
    updateTimeout := none, isUpdating := false }

/-- Initial client state of the module. -/
def initialState : ClientState :=
  { currentPageSync := none, currentCollectionSync := none, ydoc := none,
    currentPageId := none, currentCollectionId := none,
    editor := some initialEditor, openPageConns := [], openCollConns := [],
    nextConnId := 0, pendingReconnects := [], sidebar := [], cover := none }

/-- A concrete editor used to instantiate hypotheses in witnesses. -/
def exEditor : Editor :=
  { content := "x", focused := true, pending := none, hasPendingHook := true,
    updateTimeout := none, isUpdating := false }

/-- A concrete document used to instantiate hypotheses in witnesses. -/
def exDoc : YDoc :=
  { applied := [], content := some "x", boundPageId := "p1" }

/-- A concrete mid-session client state used to instantiate hypotheses in
witnesses. -/
def exState : ClientState :=
  { currentPageSync := some (0, "p1"), currentCollectionSync := none,
    ydoc := some exDoc, currentPageId := some "p1",
    currentCollectionId := none, editor := some exEditor,
    openPageConns := [0], openCollConns := [], nextConnId := 1,
    pendingReconnects := [], cover := none,
    sidebar := [{ pageId := "p1", title := "A", icon := "" },
                { pageId := "p2", title := "B", icon := "" }] }

/-- A concrete merge function for witnesses. -/
def exMerge : MergeFn := fun _ _ => some "z"

/-- A merge function that empties the derived content, exhibiting the
falsy-content branch of the yjs-update listener. -/
def emptyMerge : MergeFn := fun _ _ => some ""

/-- An editor holding a pending remote update, for witnesses. -/
def exEditorPending : Editor := { exEditor with pending := some "y" }

/-- A client state whose editor holds a pending remote update. -/
def exStatePending : ClientState := { exState with editor := some exEditorPending }

/-- The two states agree on every field of the connection-management and
page-identity state: both sync records, both open-connection lists and
the current page id. -/
def SyncFieldsEq (st' st : ClientState) : Prop :=
  st'.currentPageSync = st.currentPageSync ∧
  st'.openPageConns = st.openPageConns ∧
  st'.currentCollectionSync = st.currentCollectionSync ∧
  st'.openCollConns = st.openCollConns ∧
  st'.currentPageId = st.currentPageId

/-- The pending-remote-render slot never holds the empty string: the
editor, when present, has either no pending content or a pending
non-empty string. -/
def PendingOk (st : ClientState) : Prop :=
  ∀ ed c, st.editor = some ed → ed.pending = some c → c ≠ ""

lemma yjsRenderGate_syncFields (c? : Option String) (st : ClientState) :
    SyncFieldsEq (yjsRenderGate c? st) st := by
  unfold yjsRenderGate
  rcases c? with _ | c
  · exact ⟨rfl, rfl, rfl, rfl, rfl⟩
  · cases st.editor with
    | none => exact ⟨rfl, rfl, rfl, rfl, rfl⟩
    | some ed =>
      dsimp only
      split_ifs <;> exact ⟨rfl, rfl, rfl, rfl, rfl⟩

lemma yjsRenderGate_ydoc (c? : Option String) (st : ClientState) :
    (yjsRenderGate c? st).ydoc = st.ydoc := by
  unfold yjsRenderGate
  rcases c? with _ | c
  · rfl
  · cases st.editor with
    | none => rfl
    | some ed =>
      dsimp only
      split_ifs <;> rfl

lemma setupEditorBinding_syncFields (st : ClientState) :
    SyncFieldsEq (setupEditorBinding st).1 st := by
  unfold setupEditorBinding
  cases st.editor <;> cases st.ydoc <;> exact ⟨rfl, rfl, rfl, rfl, rfl⟩

lemma initListener_syncFields (merge : MergeFn) (s : Nat) (st : ClientState) :
    SyncFieldsEq (initListener merge s st).1 st := by
  unfold initListener
  cases st.ydoc with
  | none => exact ⟨rfl, rfl, rfl, rfl, rfl⟩
  | some d =>
    exact setupEditorBinding_syncFields
      { st with ydoc := some (docApplyUpdate merge d s none).1 }

lemma yjsUpdateListener_syncFields (merge : MergeFn) (u : Nat) (st : ClientState) :
    SyncFieldsEq (yjsUpdateListener merge u st).1 st := by
  unfold yjsUpdateListener
  cases st.ydoc with
  | none => exact ⟨rfl, rfl, rfl, rfl, rfl⟩
  | some d =>
    exact yjsRenderGate_syncFields (docApplyUpdate merge d u remoteOrigin).1.content
      { st with ydoc := some (docApplyUpdate merge d u remoteOrigin).1 }

lemma editorUpdateListener_syncFields (st : ClientState) :
    SyncFieldsEq (editorUpdateListener st) st := by
  unfold editorUpdateListener
  cases st.editor with
  | none => exact ⟨rfl, rfl, rfl, rfl, rfl⟩
  | some ed =>
    dsimp only
    split_ifs <;> exact ⟨rfl, rfl, rfl, rfl, rfl⟩

lemma editorUpdateFlush_syncFields (st : ClientState) :
    SyncFieldsEq (editorUpdateFlush st).1 st := by
  unfold editorUpdateFlush
  cases st.editor <;> cases st.ydoc <;> dsimp only <;>
    try exact ⟨rfl, rfl, rfl, rfl, rfl⟩
  split_ifs <;> exact ⟨rfl, rfl, rfl, rfl, rfl⟩

lemma blurListener_syncFields (st : ClientState) :
    SyncFieldsEq (blurListener st) st := by
  unfold blurListener
  cases st.editor with
  | none => exact ⟨rfl, rfl, rfl, rfl, rfl⟩
  | some ed =>
    dsimp only
    cases ed.pending <;> (try dsimp only) <;> (try split_ifs) <;>
      exact ⟨rfl, rfl, rfl, rfl, rfl⟩

lemma focusEditor_syncFields (st : ClientState) :
    SyncFieldsEq (focusEditor st) st := by
  unfold focusEditor
  cases st.editor <;> exact ⟨rfl, rfl, rfl, rfl, rfl⟩

lemma metadataChangeListener_syncFields (esc : String → String)
    (pid field value : String) (st : ClientState) :
    SyncFieldsEq (metadataChangeListener esc pid field value st) st := by
  unfold metadataChangeListener
  dsimp only
  split_ifs <;> (try dsimp only) <;>
    first
      | exact ⟨rfl, rfl, rfl, rfl, rfl⟩
      | (cases st.cover <;> exact ⟨rfl, rfl, rfl, rfl, rfl⟩)

lemma pageConnsOk_congr {st st' : ClientState}
    (h1 : st'.currentPageSync = st.currentPageSync)
    (h2 : st'.openPageConns = st.openPageConns)
    (h : pageConnsOk st) : pageConnsOk st' := by
  unfold pageConnsOk at h ⊢
  rw [h1, h2]
  exact h

lemma collConnsOk_congr {st st' : ClientState}
    (h1 : st'.currentCollectionSync = st.currentCollectionSync)
    (h2 : st'.openCollConns = st.openCollConns)
    (h : collConnsOk st) : collConnsOk st' := by
  unfold collConnsOk at h ⊢
  rw [h1, h2]
  exact h

lemma ConnInv_of_syncFieldsEq {st st' : ClientState}
    (hf : SyncFieldsEq st' st) (h : ConnInv st) : ConnInv st' :=
  ⟨pageConnsOk_congr hf.1 hf.2.1 h.1, collConnsOk_congr hf.2.2.1 hf.2.2.2.1 h.2⟩

lemma EncInv_of_syncFieldsEq {enc : String → Bool} {st st' : ClientState}
    (hf : SyncFieldsEq st' st) (h : EncInv enc st) : EncInv enc st' :=
  ⟨fun p hp => h.1 p (hf.2.2.2.2 ▸ hp), fun cs hcs => h.2 cs (hf.1 ▸ hcs)⟩

lemma stopPageSync_openPageConns (st : ClientState) (h : pageConnsOk st) :
    (stopPageSync st).openPageConns = [] := by
  unfold pageConnsOk at h
  unfold stopPageSync
  cases hcs : st.currentPageSync with
  | none => rw [hcs] at h; exact h
  | some cs =>
    rw [hcs] at h
    dsimp only
    rcases h with h | h <;> rw [h] <;> simp

lemma stopPageSync_pageConnsOk (st : ClientState) (h : pageConnsOk st) :
    pageConnsOk (stopPageSync st) := by
  have h2 := stopPageSync_openPageConns st h
  unfold pageConnsOk
  dsimp only [stopPageSync]
  exact h2

lemma stopPageSync_collFields (st : ClientState) :
    (stopPageSync st).currentCollectionSync = st.currentCollectionSync ∧
    (stopPageSync st).openCollConns = st.openCollConns :=
  ⟨rfl, rfl⟩

lemma startPageSync_pageConnsOk (p : String) (e : Bool) (st : ClientState)
    (h : pageConnsOk st) : pageConnsOk (startPageSync p e st) := by
  cases e with
  | true => exact h
  | false =>
    unfold startPageSync
    try dsimp only
    unfold pageConnsOk
    try dsimp only
    rw [stopPageSync_openPageConns st h]
    exact Or.inr rfl

lemma startPageSync_collConnsOk (p : String) (e : Bool) (st : ClientState)
    (h : collConnsOk st) : collConnsOk (startPageSync p e st) := by
  cases e with
  | true => exact h
  | false =>
    exact collConnsOk_congr rfl rfl h

lemma stopCollectionSync_openCollConns (st : ClientState) (h : collConnsOk st) :
    (stopCollectionSync st).openCollConns = [] := by
  unfold collConnsOk at h
  unfold stopCollectionSync
  cases hcs : st.currentCollectionSync with
  | none => rw [hcs] at h; exact h
  | some cs =>
    rw [hcs] at h
    dsimp only
    rcases h with h | h <;> rw [h] <;> simp

lemma stopCollectionSync_collConnsOk (st : ClientState) (h : collConnsOk st) :
    collConnsOk (stopCollectionSync st) := by
  have h2 := stopCollectionSync_openCollConns st h
  unfold collConnsOk
  dsimp only [stopCollectionSync]
  exact h2

lemma startCollectionSync_collConnsOk (c : String) (st : ClientState)
    (h : collConnsOk st) : collConnsOk (startCollectionSync c st) := by
  unfold startCollectionSync
  try dsimp only
  unfold collConnsOk
  try dsimp only
  rw [stopCollectionSync_openCollConns st h]
  exact Or.inr rfl

lemma startCollectionSync_pageFields (c : String) (st : ClientState) :
    (startCollectionSync c st).currentPageSync = st.currentPageSync ∧
    (startCollectionSync c st).openPageConns = st.openPageConns ∧
    (startCollectionSync c st).currentPageId = st.currentPageId :=
  ⟨rfl, rfl, rfl⟩

lemma pageSyncOnError_pageConnsOk (cid : Nat) (p : String) (st : ClientState)
    (h : pageConnsOk st) : pageConnsOk (pageSyncOnError cid p st) := by
  unfold pageConnsOk at h ⊢
  unfold pageSyncOnError
  cases hcs : st.currentPageSync with
  | none =>
    rw [hcs] at h
    dsimp only
    rw [h]
    rfl
  | some cs =>
    rw [hcs] at h
    dsimp only
    rcases h with h | h
    · rw [h]; exact Or.inl rfl
    · rw [h]
      by_cases hc : cs.1 = cid
      · subst hc; simp
      · simp [List.filter, hc]

lemma collectionSyncOnError_collConnsOk (cid : Nat) (st : ClientState)
    (h : collConnsOk st) : collConnsOk (collectionSyncOnError cid st) := by
  unfold collConnsOk at h ⊢
  unfold collectionSyncOnError
  cases hcs : st.currentCollectionSync with
  | none =>
    rw [hcs] at h
    dsimp only
    rw [h]
    rfl
  | some cs =>
    rw [hcs] at h
    dsimp only
    rcases h with h | h
    · rw [h]; exact Or.inl rfl
    · rw [h]
      by_cases hc : cs.1 = cid
      · subst hc; simp
      · simp [List.filter, hc]

lemma startPageSync_ConnInv (p : String) (e : Bool) (st : ClientState)
    (h : ConnInv st) : ConnInv (startPageSync p e st) :=
  ⟨startPageSync_pageConnsOk p e st h.1, startPageSync_collConnsOk p e st h.2⟩

lemma stopPageSync_ConnInv (st : ClientState) (h : ConnInv st) :
    ConnInv (stopPageSync st) :=
  ⟨stopPageSync_pageConnsOk st h.1, collConnsOk_congr rfl rfl h.2⟩

lemma startCollectionSync_ConnInv (c : String) (st : ClientState)
    (h : ConnInv st) : ConnInv (startCollectionSync c st) :=
  ⟨pageConnsOk_congr rfl rfl h.1, startCollectionSync_collConnsOk c st h.2⟩

lemma stopCollectionSync_ConnInv (st : ClientState) (h : ConnInv st) :
    ConnInv (stopCollectionSync st) :=
  ⟨pageConnsOk_congr rfl rfl h.1, stopCollectionSync_collConnsOk st h.2⟩

lemma handleOnlinePage_ConnInv (st : ClientState) (h : ConnInv st) :
    ConnInv (handleOnlinePage st) := by
  unfold handleOnlinePage
  cases hp : st.currentPageId <;> cases hcs : st.currentPageSync <;>
    try exact h
  dsimp only
  split_ifs
  · exact h
  · exact startPageSync_ConnInv _ false st h

lemma handleOnlineColl_ConnInv (st : ClientState) (h : ConnInv st) :
    ConnInv (handleOnlineColl st) := by
  unfold handleOnlineColl
  cases hp : st.currentCollectionId <;> cases hcs : st.currentCollectionSync <;>
    try exact h
  dsimp only
  split_ifs
  · exact h
  · exact startCollectionSync_ConnInv _ st h

lemma visibilityPage_ConnInv (b : Bool) (st : ClientState) (h : ConnInv st) :
    ConnInv (visibilityPage b st) := by
  unfold visibilityPage
  cases hcs : st.currentPageSync
  · exact h
  · dsimp only
    split_ifs
    · exact h
    · exact startPageSync_ConnInv _ false st h

lemma visibilityColl_ConnInv (b : Bool) (st : ClientState) (h : ConnInv st) :
    ConnInv (visibilityColl b st) := by
  unfold visibilityColl
  cases hcs : st.currentCollectionSync
  · exact h
  · dsimp only
    split_ifs
    · exact h
    · exact startCollectionSync_ConnInv _ st h

lemma pageSyncReconnect_ConnInv (p : String) (st : ClientState)
    (h : ConnInv st) : ConnInv (pageSyncReconnect p st) := by
  unfold pageSyncReconnect
  dsimp only
  have h1 : ConnInv { st with pendingReconnects := removeReconnect p st.pendingReconnects } :=
    ⟨pageConnsOk_congr rfl rfl h.1, collConnsOk_congr rfl rfl h.2⟩
  split_ifs
  · exact startPageSync_ConnInv p false _ h1
  · exact h1

lemma step_preserves_ConnInv {merge : MergeFn} {esc : String → String}
    {enc : String → Bool} {st st' : ClientState}
    (hs : Step merge esc enc st st') (h : ConnInv st) : ConnInv st' := by
  cases hs with
  | startPage p st => exact startPageSync_ConnInv p (enc p) st h
  | stopPage st => exact stopPageSync_ConnInv st h
  | startColl c st => exact startCollectionSync_ConnInv c st h
  | stopColl st => exact stopCollectionSync_ConnInv st h
  | initEv s st => exact ConnInv_of_syncFieldsEq (initListener_syncFields merge s st) h
  | yjsUpdateEv u st => exact ConnInv_of_syncFieldsEq (yjsUpdateListener_syncFields merge u st) h
  | metadataEv pid field value st =>
      exact ConnInv_of_syncFieldsEq (metadataChangeListener_syncFields esc pid field value st) h
  | editorUpdateEv st => exact ConnInv_of_syncFieldsEq (editorUpdateListener_syncFields st) h
  | flushEv st => exact ConnInv_of_syncFieldsEq (editorUpdateFlush_syncFields st) h
  | blurEv st => exact ConnInv_of_syncFieldsEq (blurListener_syncFields st) h
  | focusEv st => exact ConnInv_of_syncFieldsEq (focusEditor_syncFields st) h
  | pageErr cid p st =>
      exact ⟨pageSyncOnError_pageConnsOk cid p st h.1, collConnsOk_congr rfl rfl h.2⟩
  | reconnectEv p st => exact pageSyncReconnect_ConnInv p st h
  | collErr cid st =>
      exact ⟨pageConnsOk_congr rfl rfl h.1, collectionSyncOnError_collConnsOk cid st h.2⟩
  | onlineEv st => exact handleOnlineColl_ConnInv _ (handleOnlinePage_ConnInv st h)
  | visibilityEv hidden pageOpen collOpen st =>
      cases hidden with
      | true => exact h
      | false => exact visibilityColl_ConnInv _ _ (visibilityPage_ConnInv _ st h)

lemma reachable_preserves_ConnInv {merge : MergeFn} {esc : String → String}
    {enc : String → Bool} {st0 st : ClientState}
    (hr : Reachable merge esc enc st0 st) (h : ConnInv st0) : ConnInv st := by
  induction hr with
  | refl => exact h
  | tail hab hbc ih => exact step_preserves_ConnInv hbc ih

lemma EncInv_congr {enc : String → Bool} {st st' : ClientState}
    (h1 : st'.currentPageId = st.currentPageId)
    (h2 : st'.currentPageSync = st.currentPageSync)
    (h : EncInv enc st) : EncInv enc st' :=
  ⟨fun p hp => h.1 p (h1 ▸ hp), fun cs hcs => h.2 cs (h2 ▸ hcs)⟩

lemma startPageSync_encrypted_id (p : String) (st : ClientState) :
    startPageSync p true st = st := rfl

lemma startPageSync_false_EncInv {enc : String → Bool} (p : String)
    (st : ClientState) (hp : enc p = false) :
    EncInv enc (startPageSync p false st) := by
  constructor
  · intro q hq
    have : some p = some q := hq
    cases this
    exact hp
  · intro cs hcs
    have : some ((stopPageSync st).nextConnId, p) = some cs := hcs
    cases this
    exact hp

lemma stopPageSync_EncInv {enc : String → Bool} (st : ClientState) :
    EncInv enc (stopPageSync st) := by
  refine ⟨?_, ?_⟩
  · intro p hp
    simp [stopPageSync] at hp
  · intro cs hcs
    simp [stopPageSync] at hcs

lemma startPageSync_EncInv {enc : String → Bool} (p : String) (e : Bool)
    (st : ClientState) (hp : e = true ∨ enc p = false) (h : EncInv enc st) :
    EncInv enc (startPageSync p e st) := by
  cases e with
  | true => exact h
  | false =>
    rcases hp with hp | hp
    · cases hp
    · exact startPageSync_false_EncInv p st hp

lemma handleOnlinePage_EncInv {enc : String → Bool} (st : ClientState)
    (h : EncInv enc st) : EncInv enc (handleOnlinePage st) := by
  unfold handleOnlinePage
  cases hp : st.currentPageId <;> cases hcs : st.currentPageSync <;>
    try exact h
  case some.none p =>
    dsimp only
    split_ifs
    · exact h
    · exact startPageSync_false_EncInv p st (h.1 p hp)

lemma handleOnlineColl_EncInv {enc : String → Bool} (st : ClientState)
    (h : EncInv enc st) : EncInv enc (handleOnlineColl st) := by
  unfold handleOnlineColl
  cases hp : st.currentCollectionId <;> cases hcs : st.currentCollectionSync <;>
    try exact h
  dsimp only
  split_ifs
  · exact h
  · exact EncInv_congr (startCollectionSync_pageFields _ st).2.2 (startCollectionSync_pageFields _ st).1 h

lemma visibilityPage_EncInv {enc : String → Bool} (b : Bool) (st : ClientState)
    (h : EncInv enc st) : EncInv enc (visibilityPage b st) := by
  unfold visibilityPage
  cases hcs : st.currentPageSync with
  | none => exact h
  | some cs =>
    dsimp only
    split_ifs
    · exact h
    · exact startPageSync_false_EncInv cs.2 st (h.2 cs hcs)

lemma visibilityColl_EncInv {enc : String → Bool} (b : Bool) (st : ClientState)
    (h : EncInv enc st) : EncInv enc (visibilityColl b st) := by
  unfold visibilityColl
  cases hcs : st.currentCollectionSync with
  | none => exact h
  | some cs =>
    dsimp only
    split_ifs
    · exact h
    · exact EncInv_congr (startCollectionSync_pageFields _ st).2.2 (startCollectionSync_pageFields _ st).1 h

lemma pageSyncReconnect_EncInv {enc : String → Bool} (p : String)
    (st : ClientState) (h : EncInv enc st) :
    EncInv enc (pageSyncReconnect p st) := by
  unfold pageSyncReconnect
  dsimp only
  have h1 : EncInv enc { st with pendingReconnects := removeReconnect p st.pendingReconnects } :=
    EncInv_congr rfl rfl h
  split_ifs with hguard
  · exact startPageSync_false_EncInv p _ (h.1 p hguard)
  · exact h1

lemma step_preserves_EncInv {merge : MergeFn} {esc : String → String}
    {enc : String → Bool} {st st' : ClientState}
    (hs : Step merge esc enc st st') (h : EncInv enc st) : EncInv enc st' := by
  cases hs with
  | startPage p st =>
      cases henc : enc p with
      | true => exact h
      | false => exact startPageSync_false_EncInv p st henc
  | stopPage st => exact stopPageSync_EncInv st
  | startColl c st =>
      exact EncInv_congr (startCollectionSync_pageFields c st).2.2 (startCollectionSync_pageFields c st).1 h
  | stopColl st => exact EncInv_congr rfl rfl h
  | initEv s st => exact EncInv_of_syncFieldsEq (initListener_syncFields merge s st) h
  | yjsUpdateEv u st => exact EncInv_of_syncFieldsEq (yjsUpdateListener_syncFields merge u st) h
  | metadataEv pid field value st =>
      exact EncInv_of_syncFieldsEq (metadataChangeListener_syncFields esc pid field value st) h
  | editorUpdateEv st => exact EncInv_of_syncFieldsEq (editorUpdateListener_syncFields st) h
  | flushEv st => exact EncInv_of_syncFieldsEq (editorUpdateFlush_syncFields st) h
  | blurEv st => exact EncInv_of_syncFieldsEq (blurListener_syncFields st) h
  | focusEv st => exact EncInv_of_syncFieldsEq (focusEditor_syncFields st) h
  | pageErr cid p st => exact EncInv_congr rfl rfl h
  | reconnectEv p st => exact pageSyncReconnect_EncInv p st h
  | collErr cid st => exact EncInv_congr rfl rfl h
  | onlineEv st => exact handleOnlineColl_EncInv _ (handleOnlinePage_EncInv st h)
  | visibilityEv hidden pageOpen collOpen st =>
      cases hidden with
      | true => exact h
      | false => exact visibilityColl_EncInv _ _ (visibilityPage_EncInv _ st h)

lemma reachable_preserves_EncInv {merge : MergeFn} {esc : String → String}
    {enc : String → Bool} {st0 st : ClientState}
    (hr : Reachable merge esc enc st0 st) (h : EncInv enc st0) : EncInv enc st := by
  induction hr with
  | refl => exact h
  | tail hab hbc ih => exact step_preserves_EncInv hbc ih

lemma yjsRenderGate_focused_content {st : ClientState} {ed : Editor}
    (hed : st.editor = some ed) (hf : ed.focused = true) (c? : Option String) :
    ∃ ed2, (yjsRenderGate c? st).editor = some ed2 ∧ ed2.content = ed.content := by
  unfold yjsRenderGate
  rcases c? with _ | c
  · exact ⟨ed, hed, rfl⟩
  · rw [hed]
    dsimp only
    split_ifs <;>
      first
        | exact ⟨_, rfl, rfl⟩
        | exact ⟨ed, hed, rfl⟩

lemma yjsRenderGate_focused_pending {st : ClientState} {ed : Editor} {c : String}
    (hed : st.editor = some ed) (hf : ed.focused = true)
    (h1 : c ≠ "") (h2 : c ≠ ed.content) (h3 : ed.hasPendingHook = true) :
    (yjsRenderGate (some c) st).editor = some { ed with pending := some c } := by
  unfold yjsRenderGate
  rw [hed]
  dsimp only
  rw [if_pos h1, if_pos h2, hf, if_pos rfl, if_pos h3]

lemma yjsUpdateListener_ydoc {merge : MergeFn} {u : Nat} {st : ClientState}
    {d : YDoc} (hd : st.ydoc = some d) :
    ((yjsUpdateListener merge u st).1).ydoc
      = some ((docApplyUpdate merge d u remoteOrigin).1) := by
  unfold yjsUpdateListener
  rw [hd]
  dsimp only
  rw [yjsRenderGate_ydoc]

lemma yjsUpdateListener_editor {merge : MergeFn} {u : Nat} {st : ClientState}
    {d : YDoc} (hd : st.ydoc = some d) :
    ((yjsUpdateListener merge u st).1).editor
      = (yjsRenderGate ((docApplyUpdate merge d u remoteOrigin).1).content
          { st with ydoc := some (docApplyUpdate merge d u remoteOrigin).1 }).editor := by
  unfold yjsUpdateListener
  rw [hd]

lemma initListener_ydoc {merge : MergeFn} {s : Nat} {st : ClientState}
    {d : YDoc} {ed : Editor} (hd : st.ydoc = some d) (hed : st.editor = some ed) :
    ((initListener merge s st).1).ydoc
      = some (docSetContent (docApplyUpdate merge d s none).1 ed.content).1 := by
  unfold initListener
  rw [hd]
  dsimp only
  unfold setupEditorBinding
  dsimp only
  rw [hed]

lemma editorUpdateListener_editor {st : ClientState} {ed : Editor}
    (hed : st.editor = some ed) (hu : ed.isUpdating = false) :
    (editorUpdateListener st).editor = some { ed with updateTimeout := some 200 } := by
  unfold editorUpdateListener
  rw [hed]
  dsimp only
  simp [hu]

lemma editorUpdateListener_ydoc {st : ClientState} {ed : Editor}
    (hed : st.editor = some ed) (hu : ed.isUpdating = false) :
    (editorUpdateListener st).ydoc = st.ydoc := by
  unfold editorUpdateListener
  rw [hed]
  dsimp only
  simp [hu]

lemma editorUpdateListener_iter {st : ClientState} {ed : Editor}
    (hed : st.editor = some ed) (hu : ed.isUpdating = false) :
    ∀ n : Nat, (editorUpdateListener^[n + 1] st).editor
      = some { ed with updateTimeout := some 200 } := by
  intro n
  induction n with
  | zero => simpa using editorUpdateListener_editor hed hu
  | succ k ih =>
    rw [Function.iterate_succ_apply']
    exact @editorUpdateListener_editor _ { ed with updateTimeout := some 200 } ih hu

lemma editorUpdateFlush_sends {st : ClientState} {ed : Editor} {d : YDoc}
    (hed : st.editor = some ed) (hd : st.ydoc = some d) :
    (editorUpdateFlush st).2
      = (if some ed.content ≠ d.content
          then [(d.boundPageId, Payload.setContent ed.content)] else []) := by
  unfold editorUpdateFlush
  rw [hed, hd]
  dsimp only
  split_ifs <;> rfl

/-- C1: while a page sync is active (the local Yjs document exists), every
remote yjs-update event is merged into the replicated document
unconditionally via Y.applyUpdate with origin remote — the resulting
document is determined by the previous document and the update alone,
independent of the editor and of whether it holds input focus — and the
update is appended to the document's transaction log, so no remote change
is ever dropped from the replicated state; only rendering is gated. -/
theorem remote_update_always_merged (merge : MergeFn) (u : Nat)
    (st : ClientState) (d : YDoc) (hd : st.ydoc = some d) :
    ((yjsUpdateListener merge u st).1).ydoc
      = some ((docApplyUpdate merge d u remoteOrigin).1) ∧
    ((docApplyUpdate merge d u remoteOrigin).1).applied
      = d.applied ++ [(Payload.ext u, remoteOrigin)] :=
  ⟨yjsUpdateListener_ydoc hd, rfl⟩

/-- Witness for C1 at a concrete mid-session state. -/
theorem remote_update_always_merged_witness :
    ((yjsUpdateListener exMerge 3 exState).1).ydoc
      = some ((docApplyUpdate exMerge exDoc 3 remoteOrigin).1) ∧
    ((docApplyUpdate exMerge exDoc 3 remoteOrigin).1).applied
      = exDoc.applied ++ [(Payload.ext 3, remoteOrigin)] :=
  remote_update_always_merged exMerge 3 exState exDoc rfl

/-- C5: stopping page sync closes the transport (no page EventSource
remains open), destroys the Yjs document (with its fragment and metadata
views) and clears the sync record and the current page id; a subsequent
start creates a fresh empty Yjs document no matter what the previous
state held, and the init event then seeds it from the server snapshot, so
no local replicated state persists across a stop/start cycle. -/
theorem stop_clears_start_fresh (merge : MergeFn) (s : Nat) (p : String)
    (st : ClientState) (ed : Editor) (hed : st.editor = some ed)
    (hOk : pageConnsOk st) :
    (stopPageSync st).openPageConns = [] ∧
    (stopPageSync st).currentPageSync = none ∧
    (stopPageSync st).ydoc = none ∧
    (stopPageSync st).currentPageId = none ∧
    (startPageSync p false st).ydoc = some (freshYDoc p) ∧
    ((initListener merge s (startPageSync p false st)).1).ydoc
      = some (docSetContent (docApplyUpdate merge (freshYDoc p) s none).1 ed.content).1 := by
  refine ⟨stopPageSync_openPageConns st hOk, rfl, rfl, rfl, rfl, ?_⟩
  exact initListener_ydoc rfl hed

/-- Witness for C5 at a concrete mid-session state. -/
theorem stop_clears_start_fresh_witness :
    (stopPageSync exState).openPageConns = [] ∧
    (stopPageSync exState).currentPageSync = none ∧
    (stopPageSync exState).ydoc = none ∧
    (stopPageSync exState).currentPageId = none ∧
    (startPageSync "p2" false exState).ydoc = some (freshYDoc "p2") ∧
    ((initListener exMerge 5 (startPageSync "p2" false exState)).1).ydoc
      = some (docSetContent (docApplyUpdate exMerge (freshYDoc "p2") 5 none).1 exEditor.content).1 :=
  stop_clears_start_fresh exMerge 5 "p2" exState exEditor rfl (Or.inr rfl)

/-- C7: a local editor update never writes to the replicated state
directly; it only (re)schedules the single debounce timer with the fixed
200 millisecond delay, so any burst of consecutive keystrokes leaves
exactly one pending timer; when the timer fires, the debounced content is
written into the metadata map and submitted as a delta exactly when it
differs from the stored content. -/
theorem local_edits_debounced (st : ClientState) (ed : Editor) (d : YDoc)
    (n : Nat) (hed : st.editor = some ed) (hd : st.ydoc = some d)
    (hu : ed.isUpdating = false) :
    (editorUpdateListener st).editor = some { ed with updateTimeout := some 200 } ∧
    (editorUpdateListener st).ydoc = st.ydoc ∧
    (editorUpdateListener^[n + 1] st).editor
      = some { ed with updateTimeout := some 200 } ∧
    (editorUpdateFlush st).2
      = (if some ed.content ≠ d.content
          then [(d.boundPageId, Payload.setContent ed.content)] else []) :=
  ⟨editorUpdateListener_editor hed hu, editorUpdateListener_ydoc hed hu,
   editorUpdateListener_iter hed hu n, editorUpdateFlush_sends hed hd⟩

/-- Witness for C7: a burst of four keystrokes at a concrete state. -/
theorem local_edits_debounced_witness :
    (editorUpdateListener exState).editor
      = some { exEditor with updateTimeout := some 200 } ∧
    (editorUpdateListener exState).ydoc = exState.ydoc ∧
    (editorUpdateListener^[3 + 1] exState).editor
      = some { exEditor with updateTimeout := some 200 } ∧
    (editorUpdateFlush exState).2
      = (if some exEditor.content ≠ exDoc.content
          then [(exDoc.boundPageId, Payload.setContent exEditor.content)] else []) :=
  local_edits_debounced exState exEditor exDoc 3 rfl rfl rfl

/-- C9 (amended): a remote yjs-update payload is never echoed back to the
server — it is applied with origin remote, and a document transaction is
forwarded to the server exactly when its origin differs from remote; the
initial snapshot of the init event, however, is applied without the
remote origin and is therefore submitted back to the server once (see
the counterexample). -/
theorem yjs_update_not_echoed (merge : MergeFn) (u : Nat) (st : ClientState)
    (d : YDoc) (o : Origin) :
    (yjsUpdateListener merge u st).2 = [] ∧
    (docApplyUpdate merge d u o).2
      = (if o = remoteOrigin then [] else [(d.boundPageId, Payload.ext u)]) := by
  constructor
  · unfold yjsUpdateListener
    cases st.ydoc
    · rfl
    · dsimp only
      simp [docApplyUpdate, remoteOrigin]
  · rfl

/-- C9 counterexample: at a concrete state, the init listener applies the
server-sent snapshot to the local document without the remote origin tag
and the update handler consequently submits it back to the server, so not
every update applied to the local document is tagged remote and not only
locally originated changes are sent. -/
theorem init_snapshot_echoed_counterexample :
    ((initListener exMerge 7 exState).1).ydoc
      = some { applied := [(Payload.ext 7, none), (Payload.setContent "x", none)],
               content := some "x", boundPageId := "p1" } ∧
    (initListener exMerge 7 exState).2
      = [( "p1", Payload.ext 7 ), ( "p1", Payload.setContent "x" )] ∧
    (none : Origin) ≠ remoteOrigin := by
  refine ⟨rfl, rfl, ?_⟩
  decide


lemma sidebarApplyField_pageId (esc : String → String) (field value : String)
    (e : SidebarEntry) : (sidebarApplyField esc field value e).pageId = e.pageId := by
  unfold sidebarApplyField
  split_ifs <;> rfl

lemma updatePageInSidebar_frame (esc : String → String)
    (pid field value : String) :
    ∀ l : List SidebarEntry,
      List.Forall₂ (fun a b => a.pageId = b.pageId ∧ (a.pageId ≠ pid → b = a))
        l (updatePageInSidebar esc pid field value l) := by
  intro l
  induction l with
  | nil => exact List.Forall₂.nil
  | cons e rest ih =>
    unfold updatePageInSidebar
    by_cases hpe : e.pageId = pid
    · rw [if_pos hpe]
      refine List.Forall₂.cons ⟨(sidebarApplyField_pageId esc field value e).symm, fun hne => absurd hpe hne⟩ ?_
      exact List.forall₂_same.2 (fun a _ => ⟨rfl, fun _ => rfl⟩)
    · rw [if_neg hpe]
      exact List.Forall₂.cons ⟨rfl, fun _ => rfl⟩ ih

set_option linter.unnecessarySeqFocus false in
lemma metadataChangeListener_editor (esc : String → String)
    (pid field value : String) (st : ClientState) :
    (metadataChangeListener esc pid field value st).editor = st.editor := by
  unfold metadataChangeListener
  dsimp only
  split_ifs <;> (try dsimp only) <;>
    first
      | rfl
      | (cases st.cover <;> rfl)

set_option linter.unnecessarySeqFocus false in
lemma metadataChangeListener_sidebar (esc : String → String)
    (pid field value : String) (st : ClientState) :
    (metadataChangeListener esc pid field value st).sidebar
      = updatePageInSidebar esc pid field value st.sidebar := by
  unfold metadataChangeListener
  dsimp only
  split_ifs <;> (try dsimp only) <;>
    first
      | rfl
      | (cases st.cover <;> rfl)

lemma metadataChangeListener_cover_other (esc : String → String)
    (pid field value : String) (st : ClientState)
    (hview : st.currentPageId ≠ some pid) :
    (metadataChangeListener esc pid field value st).cover = st.cover := by
  unfold metadataChangeListener
  rw [if_neg (fun h => hview h.2)]
  dsimp only
  rw [if_neg (fun h => hview h.2)]

lemma yjsRenderGate_empty (st : ClientState) : yjsRenderGate (some "") st = st := by
  unfold yjsRenderGate
  cases hed : st.editor with
  | none => rfl
  | some ed =>
    dsimp only
    rw [if_neg (fun h => h rfl)]

lemma stopPageSync_editor (st : ClientState) :
    (stopPageSync st).editor = st.editor := rfl

lemma startPageSync_editor (p : String) (e : Bool) (st : ClientState) :
    (startPageSync p e st).editor = st.editor := by
  cases e <;> rfl

lemma stopCollectionSync_editor (st : ClientState) :
    (stopCollectionSync st).editor = st.editor := rfl

lemma startCollectionSync_editor (c : String) (st : ClientState) :
    (startCollectionSync c st).editor = st.editor := rfl

lemma pageSyncOnError_editor (cid : Nat) (p : String) (st : ClientState) :
    (pageSyncOnError cid p st).editor = st.editor := rfl

lemma collectionSyncOnError_editor (cid : Nat) (st : ClientState) :
    (collectionSyncOnError cid st).editor = st.editor := rfl

lemma pageSyncReconnect_editor (p : String) (st : ClientState) :
    (pageSyncReconnect p st).editor = st.editor := by
  unfold pageSyncReconnect
  dsimp only
  split_ifs <;> rfl

lemma handleOnlinePage_editor (st : ClientState) :
    (handleOnlinePage st).editor = st.editor := by
  unfold handleOnlinePage
  cases hp : st.currentPageId <;> cases hcs : st.currentPageSync <;> try rfl
  dsimp only
  split_ifs <;> rfl

lemma handleOnlineColl_editor (st : ClientState) :
    (handleOnlineColl st).editor = st.editor := by
  unfold handleOnlineColl
  cases hp : st.currentCollectionId <;> cases hcs : st.currentCollectionSync <;> try rfl
  dsimp only
  split_ifs <;> rfl

lemma visibilityPage_editor (b : Bool) (st : ClientState) :
    (visibilityPage b st).editor = st.editor := by
  unfold visibilityPage
  cases hcs : st.currentPageSync
  · rfl
  · dsimp only
    split_ifs <;> rfl

lemma visibilityColl_editor (b : Bool) (st : ClientState) :
    (visibilityColl b st).editor = st.editor := by
  unfold visibilityColl
  cases hcs : st.currentCollectionSync
  · rfl
  · dsimp only
    split_ifs <;> rfl

lemma PendingOk_congr {st st' : ClientState}
    (h : st'.editor = st.editor) (hP : PendingOk st) : PendingOk st' :=
  fun ed c he hp => hP ed c (h ▸ he) hp

lemma setupEditorBinding_PendingOk (st : ClientState) (hP : PendingOk st) :
    PendingOk (setupEditorBinding st).1 := by
  intro ed c he hp
  unfold setupEditorBinding at he
  cases hed : st.editor with
  | none =>
    rw [hed] at he
    exact hP ed c he hp
  | some ed0 =>
    rw [hed] at he
    cases hyd : st.ydoc with
    | none =>
      rw [hyd] at he
      exact hP ed c he hp
    | some d =>
      rw [hyd] at he
      dsimp only at he
      cases he
      exact Option.noConfusion hp

lemma initListener_PendingOk (merge : MergeFn) (sn : Nat) (st : ClientState)
    (hP : PendingOk st) : PendingOk (initListener merge sn st).1 := by
  unfold initListener
  cases hyd : st.ydoc with
  | none => exact hP
  | some d =>
    dsimp only
    exact setupEditorBinding_PendingOk _ (PendingOk_congr rfl hP)

lemma yjsRenderGate_PendingOk (c? : Option String) (st : ClientState)
    (hP : PendingOk st) : PendingOk (yjsRenderGate c? st) := by
  rcases c? with _ | c0
  · exact hP
  · cases hed : st.editor with
    | none =>
      unfold yjsRenderGate
      rw [hed]
      exact hP
    | some ed0 =>
      unfold yjsRenderGate
      rw [hed]
      dsimp only
      split_ifs with h1 h2 h3 h4
      · intro ed c he hp
        dsimp only at he
        cases he
        dsimp only at hp
        cases hp
        exact h1
      · exact hP
      · intro ed c he hp
        dsimp only at he
        cases he
        dsimp only at hp
        exact hP ed0 c hed hp
      · exact hP
      · exact hP

lemma yjsUpdateListener_PendingOk (merge : MergeFn) (u : Nat) (st : ClientState)
    (hP : PendingOk st) : PendingOk (yjsUpdateListener merge u st).1 := by
  unfold yjsUpdateListener
  cases hyd : st.ydoc with
  | none => exact hP
  | some d =>
    dsimp only
    exact yjsRenderGate_PendingOk _ _ (PendingOk_congr rfl hP)

lemma editorUpdateListener_PendingOk (st : ClientState) (hP : PendingOk st) :
    PendingOk (editorUpdateListener st) := by
  unfold editorUpdateListener
  cases hed : st.editor with
  | none => exact hP
  | some ed0 =>
    dsimp only
    split_ifs
    · exact hP
    · intro ed c he hp
      dsimp only at he
      cases he
      dsimp only at hp
      exact hP ed0 c hed hp

lemma editorUpdateFlush_PendingOk (st : ClientState) (hP : PendingOk st) :
    PendingOk (editorUpdateFlush st).1 := by
  unfold editorUpdateFlush
  cases hed : st.editor with
  | none => exact hP
  | some ed0 =>
    cases hyd : st.ydoc with
    | none =>
      dsimp only
      intro ed c he hp
      dsimp only at he
      cases he
      dsimp only at hp
      exact hP ed0 c hed hp
    | some d =>
      dsimp only
      split_ifs <;>
        (intro ed c he hp
         dsimp only at he
         cases he
         dsimp only at hp
         exact hP ed0 c hed hp)

lemma blurListener_PendingOk (st : ClientState) (hP : PendingOk st) :
    PendingOk (blurListener st) := by
  unfold blurListener
  cases hed : st.editor with
  | none => exact hP
  | some ed0 =>
    dsimp only
    cases hp0 : ed0.pending with
    | none =>
      intro ed c he hp
      dsimp only at he
      cases he
      exact Option.noConfusion hp
    | some cp =>
      dsimp only
      split_ifs with hcp
      · intro ed c he hp
        dsimp only at he
        cases he
        exact Option.noConfusion hp
      · intro ed c he hp
        exact absurd (hP ed0 cp hed hp0) hcp

lemma focusEditor_PendingOk (st : ClientState) (hP : PendingOk st) :
    PendingOk (focusEditor st) := by
  unfold focusEditor
  cases hed : st.editor with
  | none => exact hP
  | some ed0 =>
    dsimp only
    intro ed c he hp
    dsimp only at he
    cases he
    dsimp only at hp
    exact hP ed0 c hed hp

lemma step_preserves_PendingOk {merge : MergeFn} {esc : String → String}
    {enc : String → Bool} {st st' : ClientState}
    (hs : Step merge esc enc st st') (hP : PendingOk st) : PendingOk st' := by
  cases hs with
  | startPage p st => exact PendingOk_congr (startPageSync_editor p (enc p) st) hP
  | stopPage st => exact PendingOk_congr (stopPageSync_editor st) hP
  | startColl c st => exact PendingOk_congr (startCollectionSync_editor c st) hP
  | stopColl st => exact PendingOk_congr (stopCollectionSync_editor st) hP
  | initEv sn st => exact initListener_PendingOk merge sn st hP
  | yjsUpdateEv u st => exact yjsUpdateListener_PendingOk merge u st hP
  | metadataEv pid field value st =>
      exact PendingOk_congr (metadataChangeListener_editor esc pid field value st) hP
  | editorUpdateEv st => exact editorUpdateListener_PendingOk st hP
  | flushEv st => exact editorUpdateFlush_PendingOk st hP
  | blurEv st => exact blurListener_PendingOk st hP
  | focusEv st => exact focusEditor_PendingOk st hP
  | pageErr cid p st => exact PendingOk_congr (pageSyncOnError_editor cid p st) hP
  | reconnectEv p st => exact PendingOk_congr (pageSyncReconnect_editor p st) hP
  | collErr cid st => exact PendingOk_congr (collectionSyncOnError_editor cid st) hP
  | onlineEv st =>
      exact PendingOk_congr (handleOnlineColl_editor _)
        (PendingOk_congr (handleOnlinePage_editor st) hP)
  | visibilityEv hidden pageOpen collOpen st =>
      cases hidden with
      | true => exact hP
      | false =>
          exact PendingOk_congr (visibilityColl_editor _ _)
            (PendingOk_congr (visibilityPage_editor _ st) hP)

lemma reachable_preserves_PendingOk {merge : MergeFn} {esc : String → String}
    {enc : String → Bool} {st0 st : ClientState}
    (hr : Reachable merge esc enc st0 st) (hP : PendingOk st0) : PendingOk st := by
  induction hr with
  | refl => exact hP
  | tail hab hbc ih => exact step_preserves_PendingOk hbc ih

/-- C2 counterexample: at a concrete state the editor is focused, the
pending hook is installed, and the merged remote content (the empty
string) differs from the rendered content, yet the listener stores
nothing as pending — the editor is left unchanged — refuting the claim
that the new content is always stored as pending while focused. -/
theorem focused_content_not_stored_counterexample :
    exEditor.focused = true ∧ exEditor.hasPendingHook = true ∧
    ((docApplyUpdate emptyMerge exDoc 0 remoteOrigin).1).content = some "" ∧
    some "" ≠ some exEditor.content ∧
    ((yjsUpdateListener emptyMerge 0 exState).1).editor = some exEditor ∧
    ((yjsUpdateListener emptyMerge 0 exState).1).editor
      ≠ some { exEditor with pending := some "" } := by
  refine ⟨rfl, rfl, rfl, by decide, by decide, by decide⟩

/-- C2 (amended): if the local editor has input focus when a remote delta
arrives, its rendered content is never changed by the listener; the
merged content is stored as pending when it is a non-empty string that
differs from the rendered content and the pending hook is installed,
while a merged empty content leaves the editor entirely untouched and is
not stored; and on the next blur event pending non-empty content is
applied to the editor exactly as stored and the pending slot is
cleared. -/
theorem focus_gate_defers_render (merge : MergeFn) (u : Nat)
    (st st2 : ClientState) (d : YDoc) (ed ed2 : Editor) (c cp : String)
    (hd : st.ydoc = some d) (hed : st.editor = some ed) (hf : ed.focused = true)
    (hed2 : st2.editor = some ed2) (hp2 : ed2.pending = some cp)
    (hcp : cp ≠ "") :
    (∃ ed3, ((yjsUpdateListener merge u st).1).editor = some ed3 ∧
      ed3.content = ed.content) ∧
    (((docApplyUpdate merge d u remoteOrigin).1).content = some c → c ≠ "" →
      c ≠ ed.content → ed.hasPendingHook = true →
      ((yjsUpdateListener merge u st).1).editor
        = some { ed with pending := some c }) ∧
    (((docApplyUpdate merge d u remoteOrigin).1).content = some "" →
      ((yjsUpdateListener merge u st).1).editor = st.editor) ∧
    (blurListener st2).editor
      = some { ed2 with content := cp, pending := none, focused := false } := by
  refine ⟨?_, ?_, ?_, ?_⟩
  · rw [yjsUpdateListener_editor hd]
    exact @yjsRenderGate_focused_content
      { st with ydoc := some (docApplyUpdate merge d u remoteOrigin).1 } ed hed hf _
  · intro hc h1 h2 h3
    rw [yjsUpdateListener_editor hd, hc]
    exact @yjsRenderGate_focused_pending
      { st with ydoc := some (docApplyUpdate merge d u remoteOrigin).1 } ed c hed hf h1 h2 h3
  · intro hc0
    rw [yjsUpdateListener_editor hd, hc0, yjsRenderGate_empty]
  · unfold blurListener
    rw [hed2]
    dsimp only
    rw [hp2]
    dsimp only
    rw [if_pos hcp]

/-- Witness for C2 (amended) at concrete states: a focused editor
receiving a remote update whose merged content is non-empty and
different (stored as pending), the same state under a merge producing
the empty content (nothing stored), and a blur on a state with a pending
non-empty update. -/
theorem focus_gate_defers_render_witness :
    ((yjsUpdateListener exMerge 2 exState).1).editor
      = some { exEditor with pending := some "z" } ∧
    ((yjsUpdateListener emptyMerge 2 exState).1).editor = exState.editor ∧
    (blurListener exStatePending).editor
      = some { exEditorPending with content := "y", pending := none, focused := false } := by
  have h1 := focus_gate_defers_render exMerge 2 exState exStatePending exDoc
    exEditor exEditorPending "z" "y" rfl rfl rfl rfl rfl (by decide)
  have h2 := focus_gate_defers_render emptyMerge 2 exState exStatePending exDoc
    exEditor exEditorPending "z" "y" rfl rfl rfl rfl rfl (by decide)
  exact ⟨h1.2.1 rfl (by decide) (by decide) rfl, h2.2.2.1 rfl, h1.2.2.2⟩

/-- C3: starting page sync on a page flagged encrypted changes nothing at
all — no EventSource is opened, the replicated Yjs document is neither
created nor touched — and along any sequence of module steps from a state
satisfying the encryption invariant (callers pass each page's true flag),
an encrypted page never becomes the current page nor the page of the
active sync record, so reconnection signals never start sync on it. -/
theorem encrypted_page_sync_skipped (merge : MergeFn) (esc : String → String)
    (enc : String → Bool) (p : String) (st st0 st1 : ClientState)
    (h0 : EncInv enc st0) (hr : Reachable merge esc enc st0 st1) :
    startPageSync p true st = st ∧ EncInv enc st1 :=
  ⟨rfl, reachable_preserves_EncInv hr h0⟩

/-- Witness for C3 at the initial state and a mid-session state. -/
theorem encrypted_page_sync_skipped_witness :
    startPageSync "e" true exState = exState ∧
    EncInv (fun _ => false) initialState :=
  encrypted_page_sync_skipped exMerge (fun s => s) (fun _ => false) "e"
    exState initialState initialState
    ⟨fun _ _ => rfl, fun _ _ => rfl⟩ Relation.ReflTransGen.refl

/-- C4: on a transport error of the page stream the erred EventSource is
closed and a reconnect is scheduled with the fixed 3000 millisecond
delay; when the reconnect timer fires it reconnects exactly when the
current page id still equals the erred page (opening one fresh
connection), and an explicit stop clears the current page id, after which
the timer firing performs no reconnect. -/
theorem transport_error_fixed_backoff (cid : Nat) (p : String)
    (st : ClientState) (hOk : pageConnsOk st) :
    (pageSyncOnError cid p st).openPageConns
      = st.openPageConns.filter (fun c => c ≠ cid) ∧
    (pageSyncOnError cid p st).pendingReconnects
      = st.pendingReconnects ++ [(p, 3000)] ∧
    (st.currentPageId = some p →
      (pageSyncReconnect p st).currentPageSync = some (st.nextConnId, p) ∧
      (pageSyncReconnect p st).openPageConns = [st.nextConnId]) ∧
    (st.currentPageId ≠ some p →
      (pageSyncReconnect p st).currentPageSync = st.currentPageSync ∧
      (pageSyncReconnect p st).openPageConns = st.openPageConns) ∧
    (stopPageSync st).currentPageId = none ∧
    (pageSyncReconnect p (stopPageSync st)).currentPageSync = none ∧
    (pageSyncReconnect p (stopPageSync st)).openPageConns
      = (stopPageSync st).openPageConns := by
  refine ⟨rfl, rfl, ?_, ?_, rfl, ?_, ?_⟩
  · intro h
    unfold pageSyncReconnect
    rw [if_pos h]
    have hOk1 : pageConnsOk { st with pendingReconnects := removeReconnect p st.pendingReconnects } :=
      pageConnsOk_congr rfl rfl hOk
    constructor
    · rfl
    · unfold startPageSync
      dsimp only
      rw [stopPageSync_openPageConns _ hOk1]
      rfl
  · intro h
    unfold pageSyncReconnect
    rw [if_neg h]
    exact ⟨rfl, rfl⟩
  · unfold pageSyncReconnect
    rw [if_neg (fun h => Option.noConfusion h)]
    rfl
  · unfold pageSyncReconnect
    rw [if_neg (fun h => Option.noConfusion h)]

/-- Witness for C4 at a concrete mid-session state. -/
theorem transport_error_fixed_backoff_witness :
    (pageSyncOnError 0 "p1" exState).openPageConns
      = exState.openPageConns.filter (fun c => c ≠ 0) ∧
    (pageSyncOnError 0 "p1" exState).pendingReconnects
      = exState.pendingReconnects ++ [( "p1", 3000)] ∧
    (exState.currentPageId = some "p1" →
      (pageSyncReconnect "p1" exState).currentPageSync = some (exState.nextConnId, "p1") ∧
      (pageSyncReconnect "p1" exState).openPageConns = [exState.nextConnId]) ∧
    (exState.currentPageId ≠ some "p1" →
      (pageSyncReconnect "p1" exState).currentPageSync = exState.currentPageSync ∧
      (pageSyncReconnect "p1" exState).openPageConns = exState.openPageConns) ∧
    (stopPageSync exState).currentPageId = none ∧
    (pageSyncReconnect "p1" (stopPageSync exState)).currentPageSync = none ∧
    (pageSyncReconnect "p1" (stopPageSync exState)).openPageConns
      = (stopPageSync exState).openPageConns :=
  transport_error_fixed_backoff 0 "p1" exState (Or.inr rfl)

/-- C6: every start of a page sync goes through a stop of the previous
page sync and every start of a collection sync goes through a stop of the
previous collection sync, and consequently, along any sequence of module
steps from a state satisfying the connection invariant, at most one page
EventSource and at most one collection EventSource are open at any
time. -/
theorem single_active_connection (merge : MergeFn) (esc : String → String)
    (enc : String → Bool) (q c : String) (st0 st stq : ClientState)
    (h0 : ConnInv st0) (hr : Reachable merge esc enc st0 st) :
    (startPageSync q false stq).openPageConns
      = (stopPageSync stq).openPageConns ++ [(stopPageSync stq).nextConnId] ∧
    (startCollectionSync c stq).openCollConns
      = (stopCollectionSync stq).openCollConns ++ [(stopCollectionSync stq).nextConnId] ∧
    ConnInv st ∧
    st.openPageConns.length ≤ 1 ∧ st.openCollConns.length ≤ 1 := by
  have h := reachable_preserves_ConnInv hr h0
  refine ⟨rfl, rfl, h, ?_, ?_⟩
  · have h1 := h.1
    unfold pageConnsOk at h1
    cases hcs : st.currentPageSync with
    | none => rw [hcs] at h1; simp [h1]
    | some cs => rw [hcs] at h1; rcases h1 with h1 | h1 <;> simp [h1]
  · have h2 := h.2
    unfold collConnsOk at h2
    cases hcs : st.currentCollectionSync with
    | none => rw [hcs] at h2; simp [h2]
    | some cs => rw [hcs] at h2; rcases h2 with h2 | h2 <;> simp [h2]

/-- Witness for C6 from the initial state. -/
theorem single_active_connection_witness :
    (startPageSync "q" false exState).openPageConns
      = (stopPageSync exState).openPageConns ++ [(stopPageSync exState).nextConnId] ∧
    (startCollectionSync "c1" exState).openCollConns
      = (stopCollectionSync exState).openCollConns ++ [(stopCollectionSync exState).nextConnId] ∧
    ConnInv initialState ∧
    initialState.openPageConns.length ≤ 1 ∧
    initialState.openCollConns.length ≤ 1 :=
  single_active_connection exMerge (fun s => s) (fun _ => false) "q" "c1"
    initialState initialState exState ⟨rfl, rfl⟩ Relation.ReflTransGen.refl

/-- C8: a metadata-change event updates at most the sidebar entry whose
page id is named in the event — every entry keeps its page id, and every
entry for a different page is left exactly unchanged — the open editor is
never touched by the listener, and whenever the named page is not the
currently open page the cover of the viewed page is also left
unchanged. -/
theorem metadata_change_frame (esc : String → String)
    (pid field value : String) (st : ClientState) :
    List.Forall₂ (fun a b => a.pageId = b.pageId ∧ (a.pageId ≠ pid → b = a))
      st.sidebar (metadataChangeListener esc pid field value st).sidebar ∧
    (metadataChangeListener esc pid field value st).editor = st.editor ∧
    (st.currentPageId ≠ some pid →
      (metadataChangeListener esc pid field value st).cover = st.cover) := by
  refine ⟨?_, metadataChangeListener_editor esc pid field value st,
    fun hview => metadataChangeListener_cover_other esc pid field value st hview⟩
  rw [metadataChangeListener_sidebar]
  exact updatePageInSidebar_frame esc pid field value st.sidebar

/-- Witness for C8: a title change for a page that is not the open page,
at a concrete state with a two-entry sidebar; the cover implication is
discharged at this input. -/
theorem metadata_change_frame_witness :
    List.Forall₂ (fun a b => a.pageId = b.pageId ∧ (a.pageId ≠ "p2" → b = a))
      exState.sidebar
      (metadataChangeListener (fun s => s) "p2" "title" "T" exState).sidebar ∧
    (metadataChangeListener (fun s => s) "p2" "title" "T" exState).editor
      = exState.editor ∧
    (metadataChangeListener (fun s => s) "p2" "title" "T" exState).cover
      = exState.cover :=
  have h := metadata_change_frame (fun s => s) "p2" "title" "T" exState
  ⟨h.1, h.2.1, h.2.2 (by decide)⟩

/-- C10: the pending-remote-render slot holds at most one value with
last-write-wins semantics; along any sequence of module steps the slot
only ever holds non-empty content, the blur handler applies such stored
content to the editor once and resets the slot to empty, and a second
blur with no intervening remote update changes nothing. -/
theorem pending_slot_lww_blur_once (merge : MergeFn) (esc : String → String)
    (enc : String → Bool) (c1 c2 c : String) (st st2 st0 str : ClientState)
    (ed : Editor) (hed : st.editor = some ed) (hp : ed.pending = some c)
    (hc : c ≠ "") (hP0 : PendingOk st0)
    (hr : Reachable merge esc enc st0 str) :
    setPendingRemoteUpdate c2 (setPendingRemoteUpdate c1 st2)
      = setPendingRemoteUpdate c2 st2 ∧
    (blurListener st).editor
      = some { ed with content := c, pending := none, focused := false } ∧
    blurListener (blurListener st2) = blurListener st2 ∧
    PendingOk str := by
  refine ⟨?_, ?_, ?_, reachable_preserves_PendingOk hr hP0⟩
  · cases hed2 : st2.editor with
    | none => simp [setPendingRemoteUpdate, hed2]
    | some ed2 => simp [setPendingRemoteUpdate, hed2]
  · unfold blurListener
    rw [hed]
    dsimp only
    rw [hp]
    dsimp only
    rw [if_pos hc]
  · cases hed2 : st2.editor with
    | none => simp [blurListener, hed2]
    | some ed2 =>
      cases hp2 : ed2.pending with
      | none => simp [blurListener, hed2, hp2]
      | some cp =>
        by_cases hcp : cp = ""
        · subst hcp
          simp [blurListener, hed2, hp2]
        · simp [blurListener, hed2, hp2, hcp]

/-- Witness for C10 at concrete states: a pending non-empty update is
applied and cleared by blur, last write wins on the slot, a double blur
is a single blur, and the non-empty-slot invariant holds at the initial
state. -/
theorem pending_slot_lww_blur_once_witness :
    setPendingRemoteUpdate "b" (setPendingRemoteUpdate "a" exState)
      = setPendingRemoteUpdate "b" exState ∧
    (blurListener exStatePending).editor
      = some { exEditorPending with content := "y", pending := none, focused := false } ∧
    blurListener (blurListener exState) = blurListener exState ∧
    PendingOk initialState :=
  pending_slot_lww_blur_once exMerge (fun s => s) (fun _ => false) "a" "b" "y"
    exStatePending exState initialState initialState exEditorPending rfl rfl
    (by decide)
    (by
      intro ed c he hp
      have he2 : some initialEditor = some ed := he
      cases he2
      exact Option.noConfusion hp)
    Relation.ReflTransGen.refl

end DWRNote
